import Mathlib

/-!
Shallow embedding of `src/asir_core.py` (class `AdaptiveSIRSimulation`):
an adaptive SIR epidemic simulation on a mutable undirected graph.

Modelling conventions:
* The networkx graph is a node list plus an edge list of ordered pairs,
  queried under unordered-pair identity (`hasEdge` checks both orientations),
  mirroring `nx.Graph` semantics (no parallel edges; `add_edge` inserts
  missing endpoints and ignores an existing edge; `remove_edges_from`
  removes the undirected edge).
* The process-wide Python RNG (`random.seed` / `random.random` /
  `random.sample`) is modelled as a fixed stream `s : Nat → ℚ` of draws,
  fully determined by the seed, together with a cursor `idx` stored in the
  simulation and advanced by one per draw.  `RStream.Valid` states that
  every draw lies in [0,1), which is what `random.random` guarantees.
  `random.sample` is modelled as sequential floor-draws without
  replacement; the set-iteration orders of Python are fixed to list order here.
* Machine floats are modelled as exact rationals.
-/

set_option allowUnsafeReducibility true in
attribute [semireducible] Rat.mul Rat.inv Rat.add Rat.sub

namespace ASIR

/-- Node compartment states (the constants SUSCEPTIBLE/INFECTED/RECOVERED). -/
inductive SState
  | susceptible
  | infected
  | recovered
deriving DecidableEq, Repr, Inhabited

/-- A networkx-style undirected graph: node list and edge list. -/
structure Graph where
  nodes : List Nat
  edges : List (Nat × Nat)
deriving DecidableEq, Repr, Inhabited

/-- Whether a stored edge is the unordered pair {u, v}. -/
def edgeMatches (e : Nat × Nat) (u v : Nat) : Bool :=
  (e.1 == u && e.2 == v) || (e.1 == v && e.2 == u)

/-- Embeds `G.has_edge(u, v)` — membership under unordered-pair identity. -/
def Graph.hasEdge (g : Graph) (u v : Nat) : Bool :=
  g.edges.any (fun e => edgeMatches e u v)

/-- Embeds `G.neighbors(u)` — the opposite endpoints of edges incident to u. -/
def Graph.neighbors (g : Graph) (u : Nat) : List Nat :=
  g.edges.filterMap (fun e =>
    if e.1 = u then some e.2 else if e.2 = u then some e.1 else none)

/-- networkx inserts missing endpoints when an edge is added. -/
def Graph.addNode (g : Graph) (u : Nat) : Graph :=
  if u ∈ g.nodes then g else { g with nodes := g.nodes ++ [u] }

/-- Embeds `G.add_edge(u, v)` — a no-op when the undirected edge already exists. -/
def Graph.addEdge (g : Graph) (u v : Nat) : Graph :=
  let g1 := (g.addNode u).addNode v
  if g1.hasEdge u v then g1 else { g1 with edges := g1.edges ++ [(u, v)] }

/-- Remove the undirected edge {u, v} (no-op when absent). -/
def Graph.removeEdge (g : Graph) (u v : Nat) : Graph :=
  { g with edges := g.edges.filter (fun e => !edgeMatches e u v) }

/-- Embeds `G.remove_edges_from(es)`. -/
def Graph.removeEdgesFrom (g : Graph) (es : List (Nat × Nat)) : Graph :=
  es.foldl (fun h e => h.removeEdge e.1 e.2) g

/-- Embeds `G.add_edges_from(es)`. -/
def Graph.addEdgesFrom (g : Graph) (es : List (Nat × Nat)) : Graph :=
  es.foldl (fun h e => h.addEdge e.1 e.2) g

/-- Embeds `G.number_of_edges()`. -/
def Graph.numEdges (g : Graph) : Nat := g.edges.length

/-- Embeds `G.number_of_nodes()`. -/
def Graph.numNodes (g : Graph) : Nat := g.nodes.length

/-- Well-formedness guaranteed by networkx: edge endpoints are nodes. -/
def Graph.WF (g : Graph) : Prop :=
  ∀ e ∈ g.edges, e.1 ∈ g.nodes ∧ e.2 ∈ g.nodes

/-- The seeded global RNG, as the stream of values `random.random()` yields. -/
abbrev RStream := Nat → ℚ

/-- Validity: `random.random()` always returns a value in [0, 1). -/
def RStream.Valid (s : RStream) : Prop := ∀ n, 0 ≤ s n ∧ s n < 1

/-- Simulation instance state (`AdaptiveSIRSimulation` attributes):
the private graph copy, the four parameters, the frozen node count `N`,
the compartment state map, and the RNG cursor. -/
@[ext]
structure Sim where
  G : Graph
  beta : ℚ
  gamma : ℚ
  alpha : ℚ
  mu : ℚ
  n : Nat
  state : Nat → SState
  idx : Nat

/-- Embeds `__init__`: copy the graph, store the parameters (no validation in the
source), freeze `N`, and set every node SUSCEPTIBLE. -/
def initSim (g : Graph) (beta gamma alpha mu : ℚ) (idx : Nat) : Sim :=
  { G := g, beta := beta, gamma := gamma, alpha := alpha, mu := mu,
    n := g.nodes.length, state := fun _ => SState.susceptible, idx := idx }

/-- Pointwise update of the state dictionary. -/
def setSt (st : Nat → SState) (u : Nat) (v : SState) : Nat → SState :=
  fun m => if m = u then v else st m

/-- The state mutation performed when a patient zero is seeded
(`self.state[patient_zero] = self.INFECTED`). -/
def infectNode (sim : Sim) (u : Nat) : Sim :=
  { sim with state := setSt sim.state u SState.infected }

/-- Embeds `count_states`: one pass over the nodes tallying (S, I, R). -/
def countStates (g : Graph) (st : Nat → SState) : Nat × Nat × Nat :=
  g.nodes.foldl (fun c u =>
    match st u with
    | SState.susceptible => (c.1 + 1, c.2.1, c.2.2)
    | SState.infected => (c.1, c.2.1 + 1, c.2.2)
    | SState.recovered => (c.1, c.2.1, c.2.2 + 1)) (0, 0, 0)

/-- Local clustering coefficient of one node (as in nx.average_clustering:
0 for degree < 2, else the fraction of closed neighbor pairs). -/
def localClustering (g : Graph) (u : Nat) : ℚ :=
  let nbrs := (g.neighbors u).dedup
  let d := nbrs.length
  if d < 2 then 0
  else
    let links := (nbrs.map (fun v => (nbrs.filter (fun w => g.hasEdge v w)).length)).sum
    (links : ℚ) / ((d : ℚ) * ((d : ℚ) - 1))

/-- Embeds `nx.average_clustering` — raises (ZeroDivisionError) on the empty graph. -/
def averageClustering (g : Graph) : Except Unit ℚ :=
  if g.nodes.length = 0 then Except.error ()
  else Except.ok (((g.nodes.map (localClustering g)).sum) / (g.nodes.length : ℚ))

/-- Incremental connected-component partition: process nodes one by one,
merging the existing components linked to the new node. -/
def compReps (g : Graph) : List (List Nat) :=
  g.nodes.foldl (fun comps u =>
    let pr := comps.partition (fun c => c.any (fun v => g.hasEdge u v || v == u))
    (u :: pr.1.flatten) :: pr.2) []

/-- Embeds `nx.number_connected_components`. -/
def Graph.numComponents (g : Graph) : Nat := (compReps g).length

/-- One sampled row of network metrics. -/
structure Metrics where
  avgDegree : ℚ
  clustering : ℚ
  numEdges : Nat
  numComponents : Nat
deriving DecidableEq, Repr, Inhabited

/-- Embeds `compute_network_metrics`: average degree (0 when no edges), clustering
with the try/except-to-0 fallback, edge count, component count. -/
def computeNetworkMetrics (g : Graph) : Metrics :=
  { avgDegree := if 0 < g.numEdges then (2 * (g.numEdges : ℚ)) / (g.numNodes : ℚ) else 0,
    clustering := (averageClustering g).toOption.getD 0,
    numEdges := g.numEdges,
    numComponents := g.numComponents }

/-- Rule 1 scan (`adaptive_step` lines 140-147): walk the current edge list;
for each S-I edge draw once and collect it for removal when the draw is
below α.  Returns the removal list and the advanced RNG cursor. -/
def rule1Scan (s : RStream) (alpha : ℚ) (st : Nat → SState) :
    List (Nat × Nat) → Nat → List (Nat × Nat) × Nat
  | [], idx => ([], idx)
  | e :: rest, idx =>
    if (st e.1 = SState.susceptible ∧ st e.2 = SState.infected) ∨
       (st e.2 = SState.susceptible ∧ st e.1 = SState.infected) then
      let r := rule1Scan s alpha st rest (idx + 1)
      (if s idx < alpha then e :: r.1 else r.1, r.2)
    else rule1Scan s alpha st rest idx

/-- Embeds `random.sample(pop, k)` as k sequential draws, each picking the
⌊draw·|remaining|⌋-th remaining element, without replacement. -/
def sampleAux (s : RStream) : Nat → List Nat → Nat → List Nat × Nat
  | 0, _, idx => ([], idx)
  | _ + 1, [], idx => ([], idx)
  | k + 1, pop, idx =>
    let j := ((s idx * (pop.length : ℚ)).floor).toNat % pop.length
    let r := sampleAux s k (pop.eraseIdx j) (idx + 1)
    (pop.getD j 0 :: r.1, r.2)

/-- The susceptible endpoints of the edges cut by Rule 1, deduplicated
(the source accumulates them into a Python set). -/
def cutSeeds (st : Nat → SState) (removed : List (Nat × Nat)) : List Nat :=
  (removed.foldl (fun acc e =>
    let acc1 := if st e.1 = SState.susceptible then acc ++ [e.1] else acc
    if st e.2 = SState.susceptible then acc1 ++ [e.2] else acc1) []).dedup

/-- Innermost Rule 2 loop (lines 193-203): scan candidates w among the
neighbors of v; skip w = u, non-susceptible w, and existing edges; on a
draw below μ record (u, w) and break — out of this w loop only. -/
def rule2ScanW (s : RStream) (mu : ℚ) (g : Graph) (st : Nat → SState) (u : Nat) :
    List Nat → Nat → Option (Nat × Nat) × Nat
  | [], idx => (none, idx)
  | w :: ws, idx =>
    if w = u ∨ st w ≠ SState.susceptible ∨ g.hasEdge u w then
      rule2ScanW s mu g st u ws idx
    else if s idx < mu then (some (u, w), idx + 1)
    else rule2ScanW s mu g st u ws (idx + 1)

/-- Middle Rule 2 loop (lines 185-203): for each susceptible neighbor v of u,
run the w scan; a recorded edge for one v does not stop the scan for the
next v (the `break` of the source leaves only the w loop). -/
def rule2ScanV (s : RStream) (mu : ℚ) (g : Graph) (st : Nat → SState) (u : Nat) :
    List Nat → Nat → List (Nat × Nat) × Nat
  | [], idx => ([], idx)
  | v :: vs, idx =>
    if st v ≠ SState.susceptible then rule2ScanV s mu g st u vs idx
    else
      let rw := rule2ScanW s mu g st u (g.neighbors v) idx
      let rv := rule2ScanV s mu g st u vs rw.2
      (match rw.1 with
       | some e => e :: rv.1
       | none => rv.1, rv.2)

/-- Outer Rule 2 loop (lines 178-203): for each seed u still present in the
graph, scan its neighbor list. -/
def rule2ScanU (s : RStream) (mu : ℚ) (g : Graph) (st : Nat → SState) :
    List Nat → Nat → List (Nat × Nat) × Nat
  | [], idx => ([], idx)
  | u :: us, idx =>
    if u ∈ g.nodes then
      let rv := rule2ScanV s mu g st u (g.neighbors u) idx
      let ru := rule2ScanU s mu g st us rv.2
      (rv.1 ++ ru.1, ru.2)
    else rule2ScanU s mu g st us idx

/-- Everything `adaptive_step` computes: the post-Rule-1 graph `G1`, the raw
proposal list, the proposal list after `list(set(...))`, the final graph,
and the two returned counts. -/
structure AdaptiveResult where
  G : Graph
  G1 : Graph
  edgesCut : Nat
  edgesAdded : Nat
  proposalsRaw : List (Nat × Nat)
  proposals : List (Nat × Nat)
  idx : Nat

/-- The edges Rule 1 decides to cut in this step. -/
def rule1Removals (s : RStream) (sim : Sim) : List (Nat × Nat) × Nat :=
  rule1Scan s sim.alpha sim.state sim.G.edges sim.idx

/-- The graph after the removals of Rule 1 (line 149). -/
def postCutGraph (s : RStream) (sim : Sim) : Graph :=
  sim.G.removeEdgesFrom (rule1Removals s sim).1

/-- The Rule 2 seed set nodes_to_check (lines 165-175): susceptible
endpoints of cut edges, or — when nothing was cut and susceptible nodes
exist — a random sample of at most 50 susceptible nodes. -/
def adaptiveSeeds (s : RStream) (sim : Sim) : List Nat × Nat :=
  let r1 := rule1Removals s sim
  let susceptibleNodes := (postCutGraph s sim).nodes.filter
    (fun u => sim.state u = SState.susceptible)
  let seeds0 := cutSeeds sim.state r1.1
  if seeds0.length = 0 ∧ 0 < susceptibleNodes.length then
    sampleAux s (min 50 susceptibleNodes.length) susceptibleNodes r1.2
  else (seeds0, r1.2)

/-- Embeds `adaptive_step` (lines 122-210): Rule 1 edge cutting, then Rule 2 triadic
closure seeded by the cut endpoints (falling back to a ≤50-node susceptible
sample when nothing was cut), exact-tuple deduplication of the proposals,
and a batch edge addition. -/
def adaptiveStepFull (s : RStream) (sim : Sim) : AdaptiveResult :=
  let g1 := postCutGraph s sim
  let sampled := adaptiveSeeds s sim
  let r2 := rule2ScanU s sim.mu g1 sim.state sampled.1 sampled.2
  let toAdd := r2.1.dedup
  { G := g1.addEdgesFrom toAdd, G1 := g1,
    edgesCut := (rule1Removals s sim).1.length, edgesAdded := toAdd.length,
    proposalsRaw := r2.1, proposals := toAdd, idx := r2.2 }

/-- Embeds `adaptive_step` as used by `run`: the mutated simulation plus the
returned pair (edges_cut, edges_added). -/
def adaptiveStep (s : RStream) (sim : Sim) : Sim × Nat × Nat :=
  let r := adaptiveStepFull s sim
  ({ sim with G := r.G, idx := r.idx }, r.edgesCut, r.edgesAdded)

/-- Infection pass of `epidemic_step` (lines 227-239): for each susceptible
node with k_I > 0 infected neighbors, draw once against 1 - (1-β)^k_I. -/
def infectionScan (s : RStream) (beta : ℚ) (g : Graph) (st : Nat → SState) :
    List Nat → Nat → List Nat × Nat
  | [], idx => ([], idx)
  | u :: us, idx =>
    if st u = SState.susceptible then
      let kI := ((g.neighbors u).filter (fun v => st v = SState.infected)).length
      if 0 < kI then
        let p := 1 - (1 - beta) ^ kI
        let r := infectionScan s beta g st us (idx + 1)
        (if s idx < p then u :: r.1 else r.1, r.2)
      else infectionScan s beta g st us idx
    else infectionScan s beta g st us idx

/-- Recovery pass of `epidemic_step` (lines 242-245): each infected node
draws once against γ. -/
def recoveryScan (s : RStream) (gamma : ℚ) (st : Nat → SState) :
    List Nat → Nat → List Nat × Nat
  | [], idx => ([], idx)
  | u :: us, idx =>
    if st u = SState.infected then
      let r := recoveryScan s gamma st us (idx + 1)
      (if s idx < gamma then u :: r.1 else r.1, r.2)
    else recoveryScan s gamma st us idx

/-- Embeds `epidemic_step` (lines 212-254): scan infections, then recoveries, then
commit all infection marks followed by all recovery marks. -/
def epidemicStep (s : RStream) (sim : Sim) : Sim × Nat × Nat :=
  let ri := infectionScan s sim.beta sim.G sim.state sim.G.nodes sim.idx
  let rr := recoveryScan s sim.gamma sim.state sim.G.nodes ri.2
  let st1 := ri.1.foldl (fun st u => setSt st u SState.infected) sim.state
  let st2 := rr.1.foldl (fun st u => setSt st u SState.recovered) st1
  ({ sim with state := st2, idx := rr.2 }, ri.1.length, rr.1.length)

/-- One loop body of `run`: adaptive updates, then epidemic spread. -/
def stepSim (s : RStream) (sim : Sim) : Sim :=
  (epidemicStep s (adaptiveStep s sim).1).1

/-- Iterated loop bodies (the state trajectory a run walks through). -/
def stepIter (s : RStream) : Nat → Sim → Sim
  | 0, sim => sim
  | k + 1, sim => stepIter s k (stepSim s sim)

/-- One recorded row of the epidemic time series. -/
structure Entry where
  S : Nat
  I : Nat
  R : Nat
  t : Nat
deriving DecidableEq, Repr, Inhabited

/-- The outcome of `run`: final instance, epidemic series, network series. -/
structure RunResult where
  sim : Sim
  series : List Entry
  netSeries : List Metrics

/-- The `while t < max_steps` loop of `run` (lines 276-305), with the
remaining step budget as fuel: record counts (and metrics when tracked),
break when I = 0, otherwise rewire, spread, and advance t. -/
def runAux (s : RStream) (track : Bool) : Nat → Nat → Sim → List Entry → List Metrics → RunResult
  | 0, _, sim, es, ms => ⟨sim, es, ms⟩
  | fuel + 1, t, sim, es, ms =>
    let c := countStates sim.G sim.state
    let es1 := es ++ [⟨c.1, c.2.1, c.2.2, t⟩]
    let ms1 := if track then ms ++ [computeNetworkMetrics sim.G] else ms
    if c.2.1 = 0 then ⟨sim, es1, ms1⟩
    else runAux s track fuel (t + 1) (stepSim s sim) es1 ms1

/-- Embeds `run(max_steps, track_network)`: reset the series and loop from t = 0. -/
def runSim (s : RStream) (sim : Sim) (maxSteps : Nat) (track : Bool) : RunResult :=
  runAux s track maxSteps 0 sim [] []

/-- Rank of a state in the one-way S → I → R order. -/
def stateRank : SState → Nat
  | SState.susceptible => 0
  | SState.infected => 1
  | SState.recovered => 2

/-- Deterministic infection targets when β = 1 and draws are valid:
exactly the susceptible nodes with an infected neighbor. -/
def detTargets (g : Graph) (st : Nat → SState) : List Nat :=
  g.nodes.filter (fun u =>
    st u = SState.susceptible ∧
    0 < ((g.neighbors u).filter (fun v => st v = SState.infected)).length)

/-- Deterministic state update when β = 1 and γ = 0. -/
def detUpdate (g : Graph) (st : Nat → SState) : Nat → SState :=
  (detTargets g st).foldl (fun a u => setSt a u SState.infected) st

/-- Ring lattice on 20 nodes, each node tied to 2 neighbors on each side. -/
def ring20 : Graph :=
  { nodes := List.range 20,
    edges := (List.range 20).map (fun i => (i, (i + 1) % 20)) ++
             (List.range 20).map (fun i => (i, (i + 2) % 20)) }

/-- Infection pattern on the ring after k deterministic steps: node u is
infected exactly when its ring distance from node 0 is at most 2k. -/
def ringSt (k : Nat) : Nat → SState :=
  fun u => if u < 20 ∧ (u ≤ 2 * k ∨ 20 ≤ u + 2 * k) then SState.infected
           else SState.susceptible

/-- The ring scenario simulation at trajectory position k (β = 1, γ = α = μ = 0). -/
def ringSim (k idx : Nat) : Sim :=
  { G := ring20, beta := 1, gamma := 0, alpha := 0, mu := 0, n := 20,
    state := ringSt k, idx := idx }

/-- A concrete valid RNG stream. -/
def constHalf : RStream := fun _ => (1 : ℚ) / 2

/-- A second concrete valid RNG stream. -/
def constThird : RStream := fun _ => (1 : ℚ) / 3

/-- Path graph 0 - 2 - 1: all susceptible, μ = 1 makes both endpoints of the
open triangle propose the same new edge in opposite orientations. -/
def pathGraph : Graph := { nodes := [0, 1, 2], edges := [(0, 2), (2, 1)] }

/-- A simulation on `pathGraph` with μ = 1 and no infected nodes. -/
def pathSim : Sim := initSim pathGraph 1 0 0 1 0

/-- Two open triangles hang off node 0 through distinct middles 1 and 2. -/
def starGraph : Graph := { nodes := [0, 1, 2, 3, 4], edges := [(0, 1), (0, 2), (1, 3), (2, 4)] }

/-- A simulation on `starGraph` with μ = 1 and no infected nodes. -/
def starSim : Sim := initSim starGraph 1 0 0 1 0

/-- The zero-node graph. -/
def emptyGraph : Graph := { nodes := [], edges := [] }

/-- Sum of an (S, I, R) count triple. -/
def tripleSum (c : Nat × Nat × Nat) : Nat := c.1 + c.2.1 + c.2.2

end ASIR

namespace ASIR

/-! ## Counting and state-commit lemmas -/

lemma countStates_go_sum (st : Nat → SState) :
    ∀ (l : List Nat) (c : Nat × Nat × Nat),
      tripleSum (l.foldl (fun c u =>
        match st u with
        | SState.susceptible => (c.1 + 1, c.2.1, c.2.2)
        | SState.infected => (c.1, c.2.1 + 1, c.2.2)
        | SState.recovered => (c.1, c.2.1, c.2.2 + 1)) c) =
      tripleSum c + l.length
  | [], c => by simp
  | u :: l, c => by
      rw [List.foldl_cons, countStates_go_sum st l]
      cases h : st u <;> simp [tripleSum] <;> omega

lemma countStates_sum (g : Graph) (st : Nat → SState) :
    tripleSum (countStates g st) = g.nodes.length := by
  simpa [countStates, tripleSum] using countStates_go_sum st g.nodes (0, 0, 0)

lemma foldl_setSt_apply (v : SState) :
    ∀ (l : List Nat) (st : Nat → SState) (u : Nat),
      (l.foldl (fun a x => setSt a x v) st) u = if u ∈ l then v else st u
  | [], st, u => by simp
  | x :: l, st, u => by
      rw [List.foldl_cons, foldl_setSt_apply v l]
      by_cases hm : u ∈ l
      · simp [hm]
      · by_cases hx : u = x <;> simp [setSt, hm, hx]

lemma infectionScan_mem (s : RStream) (beta : ℚ) (g : Graph) (st : Nat → SState)
    (l : List Nat) : ∀ (idx u : Nat), u ∈ (infectionScan s beta g st l idx).1 →
      u ∈ l ∧ st u = SState.susceptible := by
  induction l with
  | nil => intro idx u h; simp [infectionScan] at h
  | cons x l ih =>
      intro idx u h
      simp only [infectionScan] at h
      split at h
      · split at h
        · split at h
          · rcases List.mem_cons.mp h with rfl | hm
            · exact ⟨List.mem_cons_self _ _, by assumption⟩
            · rcases ih _ _ hm with ⟨h1, h2⟩
              exact ⟨List.mem_cons_of_mem _ h1, h2⟩
          · rcases ih _ _ h with ⟨h1, h2⟩
            exact ⟨List.mem_cons_of_mem _ h1, h2⟩
        · rcases ih _ _ h with ⟨h1, h2⟩
          exact ⟨List.mem_cons_of_mem _ h1, h2⟩
      · rcases ih _ _ h with ⟨h1, h2⟩
        exact ⟨List.mem_cons_of_mem _ h1, h2⟩

lemma recoveryScan_mem (s : RStream) (gamma : ℚ) (st : Nat → SState)
    (l : List Nat) : ∀ (idx u : Nat), u ∈ (recoveryScan s gamma st l idx).1 →
      u ∈ l ∧ st u = SState.infected := by
  induction l with
  | nil => intro idx u h; simp [recoveryScan] at h
  | cons x l ih =>
      intro idx u h
      simp only [recoveryScan] at h
      split at h
      · split at h
        · rcases List.mem_cons.mp h with rfl | hm
          · exact ⟨List.mem_cons_self _ _, by assumption⟩
          · rcases ih _ _ hm with ⟨h1, h2⟩
            exact ⟨List.mem_cons_of_mem _ h1, h2⟩
        · rcases ih _ _ h with ⟨h1, h2⟩
          exact ⟨List.mem_cons_of_mem _ h1, h2⟩
      · rcases ih _ _ h with ⟨h1, h2⟩
        exact ⟨List.mem_cons_of_mem _ h1, h2⟩

lemma epidemicStep_state_apply (s : RStream) (sim : Sim) (u : Nat) :
    ((epidemicStep s sim).1).state u =
      (if u ∈ (recoveryScan s sim.gamma sim.state sim.G.nodes
                 (infectionScan s sim.beta sim.G sim.state sim.G.nodes sim.idx).2).1
       then SState.recovered
       else if u ∈ (infectionScan s sim.beta sim.G sim.state sim.G.nodes sim.idx).1
       then SState.infected else sim.state u) := by
  show ((recoveryScan s sim.gamma sim.state sim.G.nodes
          (infectionScan s sim.beta sim.G sim.state sim.G.nodes sim.idx).2).1.foldl
            (fun st u => setSt st u SState.recovered)
            ((infectionScan s sim.beta sim.G sim.state sim.G.nodes sim.idx).1.foldl
              (fun st u => setSt st u SState.infected) sim.state)) u = _
  rw [foldl_setSt_apply, foldl_setSt_apply]

lemma epidemicStep_transition (s : RStream) (sim : Sim) (u : Nat) :
    ((epidemicStep s sim).1).state u = sim.state u ∨
    (sim.state u = SState.susceptible ∧ ((epidemicStep s sim).1).state u = SState.infected) ∨
    (sim.state u = SState.infected ∧ ((epidemicStep s sim).1).state u = SState.recovered) := by
  rw [epidemicStep_state_apply]
  by_cases hr : u ∈ (recoveryScan s sim.gamma sim.state sim.G.nodes
      (infectionScan s sim.beta sim.G sim.state sim.G.nodes sim.idx).2).1
  · right; right
    exact ⟨(recoveryScan_mem _ _ _ _ _ _ hr).2, by simp [hr]⟩
  · by_cases hi : u ∈ (infectionScan s sim.beta sim.G sim.state sim.G.nodes sim.idx).1
    · right; left
      exact ⟨(infectionScan_mem _ _ _ _ _ _ _ hi).2, by simp [hr, hi]⟩
    · left; simp [hr, hi]

lemma adaptiveStep_state (s : RStream) (sim : Sim) :
    ((adaptiveStep s sim).1).state = sim.state := rfl

lemma stepSim_transition (s : RStream) (sim : Sim) (u : Nat) :
    (stepSim s sim).state u = sim.state u ∨
    (sim.state u = SState.susceptible ∧ (stepSim s sim).state u = SState.infected) ∨
    (sim.state u = SState.infected ∧ (stepSim s sim).state u = SState.recovered) := by
  have h := epidemicStep_transition s (adaptiveStep s sim).1 u
  rw [adaptiveStep_state] at h
  exact h

lemma stepIter_succ (s : RStream) : ∀ (k : Nat) (sim : Sim),
    stepIter s (k + 1) sim = stepSim s (stepIter s k sim)
  | 0, sim => rfl
  | k + 1, sim => by
      show stepIter s (k + 1) (stepSim s sim) = _
      rw [stepIter_succ s k (stepSim s sim)]
      rfl

/-- C3: across a whole run, the state sequence of each node is a prefix of
S*, I*, R*: one loop body (adaptive then epidemic step) either leaves a
state of a node unchanged, or applies SUSCEPTIBLE → INFECTED, or applies
INFECTED → RECOVERED; in particular the rank in the order S < I < R never
decreases and RECOVERED is terminal. -/
theorem c3_transition_monotonicity (s : RStream) (sim : Sim) (u : Nat) (k : Nat) :
    stateRank ((stepIter s k sim).state u) ≤ stateRank ((stepIter s (k + 1) sim).state u) ∧
    ((stepIter s (k + 1) sim).state u = (stepIter s k sim).state u ∨
     ((stepIter s k sim).state u = SState.susceptible ∧
      (stepIter s (k + 1) sim).state u = SState.infected) ∨
     ((stepIter s k sim).state u = SState.infected ∧
      (stepIter s (k + 1) sim).state u = SState.recovered)) := by
  rw [stepIter_succ]
  rcases stepSim_transition s (stepIter s k sim) u with h | ⟨h1, h2⟩ | ⟨h1, h2⟩
  · exact ⟨by rw [h], Or.inl h⟩
  · exact ⟨by rw [h1, h2]; decide, Or.inr (Or.inl ⟨h1, h2⟩)⟩
  · exact ⟨by rw [h1, h2]; decide, Or.inr (Or.inr ⟨h1, h2⟩)⟩

/-- C6 (counterexample): constructing a simulation with β = 2, γ = 3,
α = -1, μ = 3/2 — all outside [0, 1] — reports no error: the out-of-range
values are stored verbatim (not clamped) and the simulation even runs. -/
theorem c6_counterexample_no_validation :
    (initSim pathGraph 2 3 (-1) (3/2) 0).beta = 2 ∧
    (initSim pathGraph 2 3 (-1) (3/2) 0).gamma = 3 ∧
    (initSim pathGraph 2 3 (-1) (3/2) 0).alpha = -1 ∧
    (initSim pathGraph 2 3 (-1) (3/2) 0).mu = 3/2 ∧
    (runSim constHalf (infectNode (initSim pathGraph 2 3 (-1) (3/2) 0) 0) 2 false).series.length = 2 := by
  refine ⟨rfl, rfl, rfl, rfl, ?_⟩
  decide

/-- C6 (amended): construction performs no parameter validation at all —
for every β, γ, α, μ (in range or not) the constructor succeeds and stores
the values unchanged, with every node initialized SUSCEPTIBLE. -/
theorem c6_amended_params_stored_unvalidated (g : Graph) (beta gamma alpha mu : ℚ) (i : Nat) :
    (initSim g beta gamma alpha mu i).beta = beta ∧
    (initSim g beta gamma alpha mu i).gamma = gamma ∧
    (initSim g beta gamma alpha mu i).alpha = alpha ∧
    (initSim g beta gamma alpha mu i).mu = mu ∧
    (initSim g beta gamma alpha mu i).n = g.nodes.length ∧
    (initSim g beta gamma alpha mu i).state = (fun _ => SState.susceptible) :=
  ⟨rfl, rfl, rfl, rfl, rfl, rfl⟩

/-- C1: evaluating adaptive_step on the all-susceptible simulation
starSim (two open triangles 0-1-3 and 0-2-4 hanging off seed 0) with
μ = 1: the break leaves only the innermost w loop, so seed 0 records one
proposal per neighbor v — two edges (0,3) and (0,4), not at most one,
and both become edges of the updated graph. -/
theorem c1_code_two_proposals_for_seed_zero :
    ((adaptiveStepFull constHalf starSim).proposals.filter (fun e => e.1 = 0)) = [(0, 3), (0, 4)] ∧
    (adaptiveStepFull constHalf starSim).G.hasEdge 0 3 = true ∧
    (adaptiveStepFull constHalf starSim).G.hasEdge 0 4 = true := by
  refine ⟨?_, ?_, ?_⟩ <;> decide

/-- C7: on pathSim (path 0 - 2 - 1, all susceptible, μ = 1) the proposal
list after list(set(...)) still holds both orientations (1,0) and (0,1) of
the same unordered pair, adaptive_step reports edges_added = 2, yet the
graph gains only one edge over the post-Rule-1 graph. -/
theorem c7_code_overcounts_added_edges :
    (adaptiveStepFull constHalf pathSim).proposals = [(1, 0), (0, 1)] ∧
    (adaptiveStepFull constHalf pathSim).edgesAdded = 2 ∧
    (adaptiveStepFull constHalf pathSim).G.numEdges = (adaptiveStepFull constHalf pathSim).G1.numEdges + 1 := by
  refine ⟨?_, ?_, ?_⟩ <;> decide

end ASIR

namespace ASIR

/-! ## Graph preservation lemmas -/

lemma removeEdge_nodes (g : Graph) (u v : Nat) : (g.removeEdge u v).nodes = g.nodes := rfl

lemma removeEdgesFrom_nodes : ∀ (es : List (Nat × Nat)) (g : Graph),
    (g.removeEdgesFrom es).nodes = g.nodes
  | [], g => rfl
  | e :: es, g => by
      have h0 : Graph.removeEdgesFrom g (e :: es) =
          Graph.removeEdgesFrom (g.removeEdge e.1 e.2) es := rfl
      rw [h0, removeEdgesFrom_nodes es]
      rfl

lemma removeEdge_edges_subset (g : Graph) (u v : Nat) :
    (g.removeEdge u v).edges ⊆ g.edges := fun _ hx => List.mem_of_mem_filter hx

lemma removeEdgesFrom_edges_subset : ∀ (es : List (Nat × Nat)) (g : Graph),
    (g.removeEdgesFrom es).edges ⊆ g.edges
  | [], _ => fun _ h => h
  | e :: es, g => fun _ h =>
      removeEdge_edges_subset g e.1 e.2
        (removeEdgesFrom_edges_subset es (g.removeEdge e.1 e.2) h)

lemma removeEdgesFrom_WF (g : Graph) (es : List (Nat × Nat)) (h : g.WF) :
    (g.removeEdgesFrom es).WF := by
  intro e he
  rw [removeEdgesFrom_nodes]
  exact h e (removeEdgesFrom_edges_subset es g he)

lemma addNode_of_mem (g : Graph) (u : Nat) (h : u ∈ g.nodes) : g.addNode u = g := by
  simp [Graph.addNode, h]

lemma addEdge_nodes (g : Graph) (u v : Nat) (hu : u ∈ g.nodes) (hv : v ∈ g.nodes) :
    (g.addEdge u v).nodes = g.nodes := by
  rw [Graph.addEdge, addNode_of_mem g u hu, addNode_of_mem g v hv]
  split <;> rfl

lemma addEdge_WF (g : Graph) (u v : Nat) (h : g.WF) (hu : u ∈ g.nodes) (hv : v ∈ g.nodes) :
    (g.addEdge u v).WF := by
  rw [Graph.addEdge, addNode_of_mem g u hu, addNode_of_mem g v hv]
  split
  · exact h
  · intro e he
    rcases List.mem_append.mp he with he1 | he1
    · exact h e he1
    · rcases List.mem_singleton.mp he1 with rfl
      exact ⟨hu, hv⟩

lemma addEdgesFrom_nodes_WF : ∀ (es : List (Nat × Nat)) (g : Graph), g.WF →
    (∀ e ∈ es, e.1 ∈ g.nodes ∧ e.2 ∈ g.nodes) →
    (g.addEdgesFrom es).nodes = g.nodes ∧ (g.addEdgesFrom es).WF
  | [], g, hwf, _ => ⟨rfl, hwf⟩
  | e :: es, g, hwf, hmem => by
      have he := hmem e (List.mem_cons_self _ _)
      have h1 : (g.addEdge e.1 e.2).nodes = g.nodes := addEdge_nodes g e.1 e.2 he.1 he.2
      have h2 : (g.addEdge e.1 e.2).WF := addEdge_WF g e.1 e.2 hwf he.1 he.2
      have h3 : ∀ x ∈ es, x.1 ∈ (g.addEdge e.1 e.2).nodes ∧ x.2 ∈ (g.addEdge e.1 e.2).nodes := by
        intro x hx
        rw [h1]
        exact hmem x (List.mem_cons_of_mem _ hx)
      have ih := addEdgesFrom_nodes_WF es (g.addEdge e.1 e.2) h2 h3
      exact ⟨by rw [show (g.addEdgesFrom (e :: es)) = ((g.addEdge e.1 e.2).addEdgesFrom es) from rfl, ih.1, h1], ih.2⟩

lemma mem_neighbors_iff (g : Graph) (v w : Nat) :
    w ∈ g.neighbors v ↔ g.hasEdge v w = true := by
  simp only [Graph.neighbors, Graph.hasEdge, List.mem_filterMap, List.any_eq_true, edgeMatches,
    Bool.or_eq_true, Bool.and_eq_true, beq_iff_eq]
  constructor
  · rintro ⟨e, he, hw⟩
    refine ⟨e, he, ?_⟩
    by_cases h1 : e.1 = v
    · simp [h1] at hw; exact Or.inl ⟨h1, hw⟩
    · simp [h1] at hw
      by_cases h2 : e.2 = v
      · simp [h2] at hw; exact Or.inr ⟨hw, h2⟩
      · simp [h2] at hw
  · rintro ⟨e, he, ⟨h1, h2⟩ | ⟨h1, h2⟩⟩
    · exact ⟨e, he, by simp [h1, h2]⟩
    · by_cases hv : e.1 = v
      · refine ⟨e, he, ?_⟩
        have hw : w = v := by rw [← h1, hv]
        simp [hv, h2, hw]
      · refine ⟨e, he, ?_⟩
        show (if e.1 = v then some e.2 else if e.2 = v then some e.1 else none) = some w
        rw [if_neg hv, if_pos h2, h1]

lemma hasEdge_mem_nodes (g : Graph) (u v : Nat) (hwf : g.WF) (h : g.hasEdge u v = true) :
    u ∈ g.nodes ∧ v ∈ g.nodes := by
  rw [Graph.hasEdge, List.any_eq_true] at h
  rcases h with ⟨e, he, hm⟩
  rcases hwf e he with ⟨h1, h2⟩
  simp only [edgeMatches, Bool.or_eq_true, Bool.and_eq_true, beq_iff_eq] at hm
  rcases hm with ⟨rfl, rfl⟩ | ⟨rfl, rfl⟩
  · exact ⟨h1, h2⟩
  · exact ⟨h2, h1⟩

/-! ## Scan membership lemmas -/

lemma rule1Scan_mem (s : RStream) (alpha : ℚ) (st : Nat → SState) :
    ∀ (l : List (Nat × Nat)) (idx : Nat) (e : Nat × Nat),
      e ∈ (rule1Scan s alpha st l idx).1 → e ∈ l ∧
        ((st e.1 = SState.susceptible ∧ st e.2 = SState.infected) ∨
         (st e.2 = SState.susceptible ∧ st e.1 = SState.infected)) := by
  intro l
  induction l with
  | nil => intro idx e h; simp [rule1Scan] at h
  | cons x l ih =>
      intro idx e h
      simp only [rule1Scan] at h
      split at h
      · split at h
        · rcases List.mem_cons.mp h with rfl | hm
          · exact ⟨List.mem_cons_self _ _, by assumption⟩
          · rcases ih _ _ hm with ⟨h1, h2⟩
            exact ⟨List.mem_cons_of_mem _ h1, h2⟩
        · rcases ih _ _ h with ⟨h1, h2⟩
          exact ⟨List.mem_cons_of_mem _ h1, h2⟩
      · rcases ih _ _ h with ⟨h1, h2⟩
        exact ⟨List.mem_cons_of_mem _ h1, h2⟩

lemma sampleAux_subset (s : RStream) :
    ∀ (k : Nat) (pop : List Nat) (idx : Nat), (sampleAux s k pop idx).1 ⊆ pop := by
  intro k
  induction k with
  | zero => intro pop idx x hx; simp [sampleAux] at hx
  | succ k ih =>
      intro pop idx x hx
      match pop with
      | [] => simp [sampleAux] at hx
      | p :: ps =>
          simp only [sampleAux] at hx
          rcases List.mem_cons.mp hx with rfl | hm
          · have hlen : (((s idx * ((p :: ps).length : ℚ)).floor).toNat % (p :: ps).length) < (p :: ps).length :=
              Nat.mod_lt _ (by simp)
            rw [List.getD_eq_getElem _ _ hlen]
            exact List.getElem_mem _
          · exact (List.eraseIdx_subset _ _) (ih _ _ hm)

lemma cutSeeds_go_mem (st : Nat → SState) :
    ∀ (l : List (Nat × Nat)) (acc : List Nat) (x : Nat),
      x ∈ l.foldl (fun acc e =>
        let acc1 := if st e.1 = SState.susceptible then acc ++ [e.1] else acc
        if st e.2 = SState.susceptible then acc1 ++ [e.2] else acc1) acc →
      x ∈ acc ∨ (st x = SState.susceptible ∧ ∃ e ∈ l, x = e.1 ∨ x = e.2)
  | [], acc, x => fun h => Or.inl h
  | e :: l, acc, x => by
      intro h
      rcases cutSeeds_go_mem st l _ x h with hacc | ⟨hs, e1, he1, hx⟩
      · have hacc2 : x ∈ (if st e.2 = SState.susceptible
            then (if st e.1 = SState.susceptible then acc ++ [e.1] else acc) ++ [e.2]
            else (if st e.1 = SState.susceptible then acc ++ [e.1] else acc)) := hacc
        by_cases h2 : st e.2 = SState.susceptible
        · rw [if_pos h2] at hacc2
          rcases List.mem_append.mp hacc2 with h3 | h3
          · by_cases h1 : st e.1 = SState.susceptible
            · rw [if_pos h1] at h3
              rcases List.mem_append.mp h3 with h4 | h4
              · exact Or.inl h4
              · rcases List.mem_singleton.mp h4 with rfl
                exact Or.inr ⟨h1, e, List.mem_cons_self _ _, Or.inl rfl⟩
            · rw [if_neg h1] at h3
              exact Or.inl h3
          · rcases List.mem_singleton.mp h3 with rfl
            exact Or.inr ⟨h2, e, List.mem_cons_self _ _, Or.inr rfl⟩
        · rw [if_neg h2] at hacc2
          by_cases h1 : st e.1 = SState.susceptible
          · rw [if_pos h1] at hacc2
            rcases List.mem_append.mp hacc2 with h4 | h4
            · exact Or.inl h4
            · rcases List.mem_singleton.mp h4 with rfl
              exact Or.inr ⟨h1, e, List.mem_cons_self _ _, Or.inl rfl⟩
          · rw [if_neg h1] at hacc2
            exact Or.inl hacc2
      · exact Or.inr ⟨hs, e1, List.mem_cons_of_mem _ he1, hx⟩

lemma cutSeeds_mem (st : Nat → SState) (removed : List (Nat × Nat)) (x : Nat)
    (h : x ∈ cutSeeds st removed) :
    st x = SState.susceptible ∧ ∃ e ∈ removed, x = e.1 ∨ x = e.2 := by
  rw [cutSeeds, List.mem_dedup] at h
  rcases cutSeeds_go_mem st removed [] x h with hacc | hgood
  · simp at hacc
  · exact hgood

lemma rule2ScanW_some (s : RStream) (mu : ℚ) (g : Graph) (st : Nat → SState) (u : Nat) :
    ∀ (ws : List Nat) (idx : Nat) (e : Nat × Nat),
      (rule2ScanW s mu g st u ws idx).1 = some e →
      e.1 = u ∧ e.2 ∈ ws ∧ e.2 ≠ u ∧ st e.2 = SState.susceptible ∧ g.hasEdge u e.2 = false := by
  intro ws
  induction ws with
  | nil => intro idx e h; simp [rule2ScanW] at h
  | cons w ws ih =>
      intro idx e h
      simp only [rule2ScanW] at h
      split at h
      · rcases ih _ _ h with ⟨h1, h2, h3, h4, h5⟩
        exact ⟨h1, List.mem_cons_of_mem _ h2, h3, h4, h5⟩
      · rename_i hguard
        push_neg at hguard
        rcases hguard with ⟨hne, hsus, hedge⟩
        split at h
        · rcases Option.some.injEq _ _ ▸ h with h
          cases h
          exact ⟨rfl, List.mem_cons_self _ _, hne, by simpa using hsus,
            by simpa using hedge⟩
        · rcases ih _ _ h with ⟨h1, h2, h3, h4, h5⟩
          exact ⟨h1, List.mem_cons_of_mem _ h2, h3, h4, h5⟩

lemma rule2ScanV_mem (s : RStream) (mu : ℚ) (g : Graph) (st : Nat → SState) (u : Nat) :
    ∀ (vs : List Nat) (idx : Nat) (e : Nat × Nat),
      e ∈ (rule2ScanV s mu g st u vs idx).1 →
      ∃ v ∈ vs, st v = SState.susceptible ∧
        ∃ j, (rule2ScanW s mu g st u (g.neighbors v) j).1 = some e := by
  intro vs
  induction vs with
  | nil => intro idx e h; simp [rule2ScanV] at h
  | cons v vs ih =>
      intro idx e h
      simp only [rule2ScanV] at h
      split at h
      · rcases ih _ _ h with ⟨v1, hv1, h2, h3⟩
        exact ⟨v1, List.mem_cons_of_mem _ hv1, h2, h3⟩
      · rename_i hsus
        push_neg at hsus
        rcases hw : (rule2ScanW s mu g st u (g.neighbors v) idx).1 with _ | e1
        · rw [hw] at h
          simp only at h
          rcases ih _ _ h with ⟨v1, hv1, h2, h3⟩
          exact ⟨v1, List.mem_cons_of_mem _ hv1, h2, h3⟩
        · rw [hw] at h
          simp only at h
          rcases List.mem_cons.mp h with rfl | hm
          · exact ⟨v, List.mem_cons_self _ _, hsus, idx, hw⟩
          · rcases ih _ _ hm with ⟨v1, hv1, h2, h3⟩
            exact ⟨v1, List.mem_cons_of_mem _ hv1, h2, h3⟩

lemma rule2ScanU_mem (s : RStream) (mu : ℚ) (g : Graph) (st : Nat → SState) :
    ∀ (us : List Nat) (idx : Nat) (e : Nat × Nat),
      e ∈ (rule2ScanU s mu g st us idx).1 →
      ∃ u ∈ us, u ∈ g.nodes ∧ ∃ j, e ∈ (rule2ScanV s mu g st u (g.neighbors u) j).1 := by
  intro us
  induction us with
  | nil => intro idx e h; simp [rule2ScanU] at h
  | cons u us ih =>
      intro idx e h
      simp only [rule2ScanU] at h
      split at h
      · rcases List.mem_append.mp h with hm | hm
        · exact ⟨u, List.mem_cons_self _ _, by assumption, idx, hm⟩
        · rcases ih _ _ hm with ⟨u1, hu1, h2, h3⟩
          exact ⟨u1, List.mem_cons_of_mem _ hu1, h2, h3⟩
      · rcases ih _ _ h with ⟨u1, hu1, h2, h3⟩
        exact ⟨u1, List.mem_cons_of_mem _ hu1, h2, h3⟩

end ASIR

namespace ASIR

/-! ## Adaptive step preservation and triadic-closure facts -/

lemma postCutGraph_nodes (s : RStream) (sim : Sim) :
    (postCutGraph s sim).nodes = sim.G.nodes := removeEdgesFrom_nodes _ _

lemma postCutGraph_WF (s : RStream) (sim : Sim) (h : sim.G.WF) :
    (postCutGraph s sim).WF := removeEdgesFrom_WF _ _ h

lemma hasEdge_mono (g1 g2 : Graph) (hsub : g1.edges ⊆ g2.edges) (a b : Nat)
    (h : g1.hasEdge a b = true) : g2.hasEdge a b = true := by
  rw [Graph.hasEdge, List.any_eq_true] at h ⊢
  rcases h with ⟨e, he, hm⟩
  exact ⟨e, hsub he, hm⟩

lemma postCutGraph_hasEdge (s : RStream) (sim : Sim) (a b : Nat)
    (h : (postCutGraph s sim).hasEdge a b = true) : sim.G.hasEdge a b = true :=
  hasEdge_mono _ _ (removeEdgesFrom_edges_subset _ _) a b h

lemma adaptiveSeeds_mem (s : RStream) (sim : Sim) (u : Nat)
    (hu : u ∈ (adaptiveSeeds s sim).1) : sim.state u = SState.susceptible := by
  simp only [adaptiveSeeds] at hu
  split at hu
  · have hsub := sampleAux_subset s _ _ _ hu
    rw [List.mem_filter] at hsub
    simpa using hsub.2
  · exact (cutSeeds_mem sim.state _ u hu).1

lemma proposalsRaw_endpoints (s : RStream) (sim : Sim) (hwf : sim.G.WF) (e : Nat × Nat)
    (he : e ∈ (adaptiveStepFull s sim).proposalsRaw) :
    e.1 ∈ (postCutGraph s sim).nodes ∧ e.2 ∈ (postCutGraph s sim).nodes := by
  obtain ⟨u, hu_seed, hu_nodes, j, hv⟩ :=
    rule2ScanU_mem s sim.mu (postCutGraph s sim) sim.state _ _ e he
  obtain ⟨v, hv_mem, hv_sus, j2, hw⟩ :=
    rule2ScanV_mem s sim.mu (postCutGraph s sim) sim.state u _ _ e hv
  obtain ⟨h1, h2, h3, h4, h5⟩ :=
    rule2ScanW_some s sim.mu (postCutGraph s sim) sim.state u _ _ e hw
  have hvw : (postCutGraph s sim).hasEdge v e.2 = true := (mem_neighbors_iff _ _ _).mp h2
  have h6 := hasEdge_mem_nodes _ v e.2 (postCutGraph_WF s sim hwf) hvw
  exact ⟨h1 ▸ hu_nodes, h6.2⟩

lemma adaptiveStep_G (s : RStream) (sim : Sim) (hwf : sim.G.WF) :
    ((adaptiveStep s sim).1).G.nodes = sim.G.nodes ∧ ((adaptiveStep s sim).1).G.WF := by
  have h1 := postCutGraph_WF s sim hwf
  have hmem : ∀ e ∈ (adaptiveStepFull s sim).proposals,
      e.1 ∈ (postCutGraph s sim).nodes ∧ e.2 ∈ (postCutGraph s sim).nodes := by
    intro e he
    exact proposalsRaw_endpoints s sim hwf e (List.mem_dedup.mp he)
  have h2 := addEdgesFrom_nodes_WF (adaptiveStepFull s sim).proposals (postCutGraph s sim) h1 hmem
  exact ⟨by rw [show ((adaptiveStep s sim).1).G =
      (postCutGraph s sim).addEdgesFrom (adaptiveStepFull s sim).proposals from rfl,
      h2.1, postCutGraph_nodes], h2.2⟩

lemma stepSim_G (s : RStream) (sim : Sim) (hwf : sim.G.WF) :
    (stepSim s sim).G.nodes = sim.G.nodes ∧ (stepSim s sim).G.WF := by
  have he : (stepSim s sim).G = ((adaptiveStep s sim).1).G := rfl
  rw [he]
  exact adaptiveStep_G s sim hwf

lemma runAux_series_sum (s : RStream) (track : Bool) :
    ∀ (fuel t : Nat) (sim : Sim) (es : List Entry) (ms : List Metrics),
      sim.G.WF →
      (∀ e ∈ es, e.S + e.I + e.R = sim.G.nodes.length) →
      ∀ e ∈ (runAux s track fuel t sim es ms).series,
        e.S + e.I + e.R = sim.G.nodes.length
  | 0, t, sim, es, ms => fun _ hes e he => hes e he
  | fuel + 1, t, sim, es, ms => by
      intro hwf hes e he
      have hnew : ∀ x ∈ es ++ [(⟨(countStates sim.G sim.state).1,
          (countStates sim.G sim.state).2.1, (countStates sim.G sim.state).2.2, t⟩ : Entry)],
          x.S + x.I + x.R = sim.G.nodes.length := by
        intro x hx
        rcases List.mem_append.mp hx with h1 | h1
        · exact hes x h1
        · rcases List.mem_singleton.mp h1 with rfl
          simpa [tripleSum] using countStates_sum sim.G sim.state
      simp only [runAux] at he
      split at he
      · exact hnew e he
      · have hstep := stepSim_G s sim hwf
        have hres := runAux_series_sum s track fuel (t + 1) (stepSim s sim) _ _ hstep.2
          (by intro x hx; rw [hstep.1]; exact hnew x hx) e he
        rw [hstep.1] at hres
        exact hres

/-- C2: every recorded entry of the time series produced by run — including
the initial entry before any mutation — has S-count + I-count + R-count
equal to the node count N frozen at construction (the graph passed in was
well-formed in the networkx sense: edge endpoints are nodes). -/
theorem c2_state_conservation (s : RStream) (g : Graph) (beta gamma alpha mu : ℚ)
    (i pz maxSteps : Nat) (track : Bool) (hwf : g.WF) (e : Entry)
    (he : e ∈ (runSim s (infectNode (initSim g beta gamma alpha mu i) pz) maxSteps track).series) :
    e.S + e.I + e.R = (initSim g beta gamma alpha mu i).n := by
  exact runAux_series_sum s track maxSteps 0 (infectNode (initSim g beta gamma alpha mu i) pz) [] []
    hwf (by intro x hx; simp at hx) e he

lemma pathGraph_WF : pathGraph.WF := by
  show ∀ e ∈ pathGraph.edges, e.1 ∈ pathGraph.nodes ∧ e.2 ∈ pathGraph.nodes
  decide

/-- Witness for C2: the initial entry of a concrete run on the 3-node path
graph sums to N = 3. -/
theorem c2_state_conservation_witness :
    (⟨2, 1, 0, 0⟩ : Entry).S + (⟨2, 1, 0, 0⟩ : Entry).I + (⟨2, 1, 0, 0⟩ : Entry).R =
      (initSim pathGraph 1 0 0 1 0).n :=
  c2_state_conservation constHalf pathGraph 1 0 0 1 0 0 3 false pathGraph_WF ⟨2, 1, 0, 0⟩ (by decide)

end ASIR

namespace ASIR

/-! ## Rule 1 removal analysis and C4 -/

lemma removeEdge_hasEdge_cases (g : Graph) (u v a b : Nat)
    (h : g.hasEdge a b = true) :
    (g.removeEdge u v).hasEdge a b = true ∨ edgeMatches (u, v) a b = true := by
  rw [Graph.hasEdge, List.any_eq_true] at h
  rcases h with ⟨e, he, hm⟩
  by_cases hk : edgeMatches e u v = true
  · right
    simp only [edgeMatches, Bool.or_eq_true, Bool.and_eq_true, beq_iff_eq] at hm hk ⊢
    omega
  · left
    rw [Graph.hasEdge, List.any_eq_true]
    refine ⟨e, ?_, hm⟩
    rw [Graph.removeEdge]
    exact List.mem_filter.mpr ⟨he, by simp [Bool.eq_false_iff.mpr hk]⟩

lemma removeEdgesFrom_hasEdge_cases :
    ∀ (l : List (Nat × Nat)) (g : Graph) (a b : Nat), g.hasEdge a b = true →
      (g.removeEdgesFrom l).hasEdge a b = true ∨ ∃ p ∈ l, edgeMatches p a b = true
  | [], _, _, _ => fun h => Or.inl h
  | p :: l, g, a, b => by
      intro h
      rcases removeEdge_hasEdge_cases g p.1 p.2 a b h with h1 | h1
      · rcases removeEdgesFrom_hasEdge_cases l (g.removeEdge p.1 p.2) a b h1 with h2 | ⟨q, hq, hm⟩
        · exact Or.inl h2
        · exact Or.inr ⟨q, List.mem_cons_of_mem _ hq, hm⟩
      · exact Or.inr ⟨p, List.mem_cons_self _ _, h1⟩

/-- C4: every edge proposed (and hence added) by Rule 2 in a step joins two
nodes that were both SUSCEPTIBLE at the start of the step, were not
adjacent before the step (neither before nor after the removals of Rule 1 —
Rule 1 only removes S-I edges, never S-S ones), and had a common
SUSCEPTIBLE neighbor before the step (adaptive_step never mutates states,
so sim.state is the start-of-step state, and the post-cut adjacencies used
by the scan are a subset of the pre-step adjacencies). -/
theorem c4_triadic_closure_correctness (s : RStream) (sim : Sim) (e : Nat × Nat)
    (he : e ∈ (adaptiveStepFull s sim).proposals) :
    sim.state e.1 = SState.susceptible ∧
    sim.state e.2 = SState.susceptible ∧
    sim.G.hasEdge e.1 e.2 = false ∧
    (adaptiveStepFull s sim).G1.hasEdge e.1 e.2 = false ∧
    ∃ v, sim.G.hasEdge e.1 v = true ∧ sim.G.hasEdge v e.2 = true ∧
      sim.state v = SState.susceptible := by
  have hraw : e ∈ (adaptiveStepFull s sim).proposalsRaw := List.mem_dedup.mp he
  obtain ⟨u, hu_seed, hu_nodes, j, hv⟩ :=
    rule2ScanU_mem s sim.mu (postCutGraph s sim) sim.state _ _ e hraw
  obtain ⟨v, hv_mem, hv_sus, j2, hw⟩ :=
    rule2ScanV_mem s sim.mu (postCutGraph s sim) sim.state u _ _ e hv
  obtain ⟨h1, h2, h3, h4, h5⟩ :=
    rule2ScanW_some s sim.mu (postCutGraph s sim) sim.state u _ _ e hw
  subst h1
  have hsus1 : sim.state e.1 = SState.susceptible := adaptiveSeeds_mem s sim e.1 hu_seed
  have hpre : sim.G.hasEdge e.1 e.2 = false := by
    cases hb : sim.G.hasEdge e.1 e.2 with
    | false => rfl
    | true =>
        exfalso
        rcases removeEdgesFrom_hasEdge_cases (rule1Removals s sim).1 sim.G e.1 e.2 hb
          with hpost | ⟨p, hp, hm⟩
        · rw [show (postCutGraph s sim) = sim.G.removeEdgesFrom (rule1Removals s sim).1 from rfl]
            at h5
          rw [hpost] at h5
          exact Bool.true_eq_false ▸ h5
        · have hst := (rule1Scan_mem s sim.alpha sim.state sim.G.edges sim.idx p hp).2
          simp only [edgeMatches, Bool.or_eq_true, Bool.and_eq_true, beq_iff_eq] at hm
          rcases hm with ⟨ha, hb2⟩ | ⟨ha, hb2⟩ <;>
            rcases hst with ⟨hc, hd⟩ | ⟨hc, hd⟩ <;> rw [ha] at * <;> rw [hb2] at * <;> simp_all
  refine ⟨hsus1, h4, hpre, h5, v, ?_, ?_, hv_sus⟩
  · exact postCutGraph_hasEdge s sim e.1 v ((mem_neighbors_iff _ _ _).mp hv_mem)
  · exact postCutGraph_hasEdge s sim v e.2 ((mem_neighbors_iff _ _ _).mp h2)

/-- Witness for C4: the proposal (1, 0) of a concrete adaptive step on the
3-node path graph satisfies all the triadic-closure conditions. -/
theorem c4_triadic_closure_witness :
    pathSim.state (1, 0).1 = SState.susceptible ∧
    pathSim.state (1, 0).2 = SState.susceptible ∧
    pathSim.G.hasEdge (1, 0).1 (1, 0).2 = false ∧
    (adaptiveStepFull constHalf pathSim).G1.hasEdge (1, 0).1 (1, 0).2 = false ∧
    ∃ v, pathSim.G.hasEdge (1, 0).1 v = true ∧ pathSim.G.hasEdge v (1, 0).2 = true ∧
      pathSim.state v = SState.susceptible :=
  c4_triadic_closure_correctness constHalf pathSim (1, 0) (by decide)

end ASIR

namespace ASIR

/-! ## Determinism, empty graph, and metrics non-interference -/

/-- C5: determinism — two runs constructed from an identical initial graph,
identical parameters β, γ, α, μ, the same seed (hence the same RNG stream,
since the stream of the process RNG is fully determined by the seed), and
the same patient-zero seeding produce identical recorded time series.  The
embedded run is a pure function of exactly these inputs — there is no other
state a run could depend on. -/
theorem c5_determinism (s1 s2 : RStream) (g1 g2 : Graph)
    (b1 b2 r1 r2 a1 a2 m1 m2 : ℚ) (pz1 pz2 max1 max2 : Nat) (tr1 tr2 : Bool)
    (hs : s1 = s2) (hg : g1 = g2) (hb : b1 = b2) (hr : r1 = r2) (ha : a1 = a2)
    (hm : m1 = m2) (hpz : pz1 = pz2) (hmax : max1 = max2) (htr : tr1 = tr2) :
    (runSim s1 (infectNode (initSim g1 b1 r1 a1 m1 0) pz1) max1 tr1).series =
    (runSim s2 (infectNode (initSim g2 b2 r2 a2 m2 0) pz2) max2 tr2).series := by
  subst hs; subst hg; subst hb; subst hr; subst ha; subst hm; subst hpz; subst hmax; subst htr
  rfl

/-- Witness for C5 at a concrete graph, parameter vector, seed and patient
zero. -/
theorem c5_determinism_witness :
    (runSim constHalf (infectNode (initSim pathGraph 1 0 0 1 0) 0) 3 false).series =
    (runSim constHalf (infectNode (initSim pathGraph 1 0 0 1 0) 0) 3 false).series :=
  c5_determinism constHalf constHalf pathGraph pathGraph 1 1 0 0 0 0 1 1 0 0 3 3 false false
    rfl rfl rfl rfl rfl rfl rfl rfl rfl

lemma runAux_track_invariant (s : RStream) :
    ∀ (fuel t : Nat) (sim : Sim) (es : List Entry) (ms1 ms2 : List Metrics),
      (runAux s true fuel t sim es ms1).series = (runAux s false fuel t sim es ms2).series ∧
      (runAux s true fuel t sim es ms1).sim = (runAux s false fuel t sim es ms2).sim
  | 0, _, _, _, _, _ => ⟨rfl, rfl⟩
  | fuel + 1, t, sim, es, ms1, ms2 => by
      simp only [runAux]
      by_cases hI : (countStates sim.G sim.state).2.1 = 0
      · rw [if_pos hI, if_pos hI]
        exact ⟨rfl, rfl⟩
      · rw [if_neg hI, if_neg hI]
        exact runAux_track_invariant s fuel (t + 1) (stepSim s sim) _ _ _

/-- C10: for any fixed initial simulation state, stream, and step cap, the
epidemic time series and the final simulation state (graph, compartment
map, RNG cursor) produced by run are identical whether track_network is
true or false: metrics computation draws no randomness and mutates neither
the graph nor the compartment state. -/
theorem c10_track_network_no_interference (s : RStream) (sim : Sim) (maxSteps : Nat) :
    (runSim s sim maxSteps true).series = (runSim s sim maxSteps false).series ∧
    (runSim s sim maxSteps true).sim = (runSim s sim maxSteps false).sim :=
  runAux_track_invariant s maxSteps 0 sim [] [] []

/-- C9: running on the empty graph (zero nodes) is a trivial, failure-free
simulation: the single recorded entry has counts (S, I, R) = (0, 0, 0),
the loop stops right after the initial snapshot (the final instance equals
the initial one: zero adaptive or epidemic steps ran), and with metrics
tracking enabled the metrics row is computed through the try/except
fallback (clustering defaults to 0) without aborting the run. -/
theorem c9_empty_graph_trivial_run (s : RStream) (beta gamma alpha mu : ℚ)
    (i maxSteps : Nat) (track : Bool) (hmax : 0 < maxSteps) :
    (runSim s (initSim emptyGraph beta gamma alpha mu i) maxSteps track).series =
      [⟨0, 0, 0, 0⟩] ∧
    (runSim s (initSim emptyGraph beta gamma alpha mu i) maxSteps track).sim =
      initSim emptyGraph beta gamma alpha mu i ∧
    (runSim s (initSim emptyGraph beta gamma alpha mu i) maxSteps track).netSeries =
      (if track then [⟨0, 0, 0, 0⟩] else []) := by
  obtain ⟨m, rfl⟩ : ∃ m, maxSteps = m + 1 := ⟨maxSteps - 1, by omega⟩
  exact ⟨rfl, rfl, by cases track <;> rfl⟩

/-- Witness for C9: a concrete empty-graph run with tracking enabled. -/
theorem c9_empty_graph_witness :
    (runSim constHalf (initSim emptyGraph (1/2) (1/3) (1/4) (1/5) 0) 7 true).series =
      [⟨0, 0, 0, 0⟩] ∧
    (runSim constHalf (initSim emptyGraph (1/2) (1/3) (1/4) (1/5) 0) 7 true).sim =
      initSim emptyGraph (1/2) (1/3) (1/4) (1/5) 0 ∧
    (runSim constHalf (initSim emptyGraph (1/2) (1/3) (1/4) (1/5) 0) 7 true).netSeries =
      (if true then [⟨0, 0, 0, 0⟩] else []) :=
  c9_empty_graph_trivial_run constHalf (1/2) (1/3) (1/4) (1/5) 0 7 true (by decide)

end ASIR

namespace ASIR

/-! ## Degenerate parameters: no cutting, no closure, sure infection -/

lemma rule1Scan_of_nonpos (s : RStream) (hs : RStream.Valid s) (alpha : ℚ)
    (ha : alpha ≤ 0) (st : Nat → SState) :
    ∀ (l : List (Nat × Nat)) (idx : Nat), (rule1Scan s alpha st l idx).1 = []
  | [], _ => rfl
  | e :: l, idx => by
      simp only [rule1Scan]
      split
      · have hno : ¬ s idx < alpha := fun h =>
          absurd (lt_of_lt_of_le h ha) (not_lt.mpr (hs idx).1)
        rw [if_neg hno]
        exact rule1Scan_of_nonpos s hs alpha ha st l (idx + 1)
      · exact rule1Scan_of_nonpos s hs alpha ha st l idx

lemma rule2ScanW_of_nonpos (s : RStream) (hs : RStream.Valid s) (mu : ℚ)
    (hm : mu ≤ 0) (g : Graph) (st : Nat → SState) (u : Nat) :
    ∀ (ws : List Nat) (idx : Nat), (rule2ScanW s mu g st u ws idx).1 = none
  | [], _ => rfl
  | w :: ws, idx => by
      simp only [rule2ScanW]
      split
      · exact rule2ScanW_of_nonpos s hs mu hm g st u ws idx
      · have hno : ¬ s idx < mu := fun h =>
          absurd (lt_of_lt_of_le h hm) (not_lt.mpr (hs idx).1)
        rw [if_neg hno]
        exact rule2ScanW_of_nonpos s hs mu hm g st u ws (idx + 1)

lemma rule2ScanV_of_nonpos (s : RStream) (hs : RStream.Valid s) (mu : ℚ)
    (hm : mu ≤ 0) (g : Graph) (st : Nat → SState) (u : Nat) :
    ∀ (vs : List Nat) (idx : Nat), (rule2ScanV s mu g st u vs idx).1 = []
  | [], _ => rfl
  | v :: vs, idx => by
      simp only [rule2ScanV]
      split
      · exact rule2ScanV_of_nonpos s hs mu hm g st u vs idx
      · rw [rule2ScanW_of_nonpos s hs mu hm g st u (g.neighbors v) idx]
        exact rule2ScanV_of_nonpos s hs mu hm g st u vs _

lemma rule2ScanU_of_nonpos (s : RStream) (hs : RStream.Valid s) (mu : ℚ)
    (hm : mu ≤ 0) (g : Graph) (st : Nat → SState) :
    ∀ (us : List Nat) (idx : Nat), (rule2ScanU s mu g st us idx).1 = []
  | [], _ => rfl
  | u :: us, idx => by
      simp only [rule2ScanU]
      split
      · rw [rule2ScanV_of_nonpos s hs mu hm g st u (g.neighbors u) idx,
          rule2ScanU_of_nonpos s hs mu hm g st us _]
        rfl
      · exact rule2ScanU_of_nonpos s hs mu hm g st us idx

lemma adaptiveStep_degenerate (s : RStream) (hs : RStream.Valid s) (sim : Sim)
    (ha : sim.alpha ≤ 0) (hm : sim.mu ≤ 0) :
    ∃ j, (adaptiveStep s sim).1 = { sim with idx := j } := by
  refine ⟨(adaptiveStepFull s sim).idx, ?_⟩
  have h1 : (rule1Removals s sim).1 = [] :=
    rule1Scan_of_nonpos s hs sim.alpha ha sim.state sim.G.edges sim.idx
  have hg1 : postCutGraph s sim = sim.G := by
    rw [postCutGraph, h1]
    rfl
  have h2 : (adaptiveStepFull s sim).proposalsRaw = [] := by
    rw [show (adaptiveStepFull s sim).proposalsRaw =
      (rule2ScanU s sim.mu (postCutGraph s sim) sim.state
        (adaptiveSeeds s sim).1 (adaptiveSeeds s sim).2).1 from rfl]
    exact rule2ScanU_of_nonpos s hs sim.mu hm (postCutGraph s sim) sim.state _ _
  have hG : (adaptiveStep s sim).1.G = sim.G := by
    rw [show (adaptiveStep s sim).1.G =
      (postCutGraph s sim).addEdgesFrom (adaptiveStepFull s sim).proposalsRaw.dedup from rfl]
    rw [h2, hg1]
    rfl
  apply Sim.ext
  · exact hG
  · rfl
  · rfl
  · rfl
  · rfl
  · rfl
  · rfl
  · rfl

lemma recoveryScan_of_nonpos (s : RStream) (hs : RStream.Valid s) (gamma : ℚ)
    (hg : gamma ≤ 0) (st : Nat → SState) :
    ∀ (l : List Nat) (idx : Nat), (recoveryScan s gamma st l idx).1 = []
  | [], _ => rfl
  | u :: l, idx => by
      simp only [recoveryScan]
      split
      · have hno : ¬ s idx < gamma := fun h =>
          absurd (lt_of_lt_of_le h hg) (not_lt.mpr (hs idx).1)
        rw [if_neg hno]
        exact recoveryScan_of_nonpos s hs gamma hg st l (idx + 1)
      · exact recoveryScan_of_nonpos s hs gamma hg st l idx

lemma infectionScan_beta_one (s : RStream) (hs : RStream.Valid s) (g : Graph)
    (st : Nat → SState) :
    ∀ (l : List Nat) (idx : Nat),
      (infectionScan s 1 g st l idx).1 = l.filter (fun u =>
        st u = SState.susceptible ∧
        0 < ((g.neighbors u).filter (fun v => st v = SState.infected)).length)
  | [], _ => rfl
  | u :: l, idx => by
      simp only [infectionScan, List.filter_cons]
      by_cases hsu : st u = SState.susceptible
      · rw [if_pos hsu]
        by_cases hk : 0 < ((g.neighbors u).filter (fun v => st v = SState.infected)).length
        · rw [if_pos hk]
          have hp : (1 : ℚ) - (1 - 1) ^
              ((g.neighbors u).filter (fun v => st v = SState.infected)).length = 1 := by
            rw [show (1 : ℚ) - 1 = 0 from by norm_num,
              zero_pow (Nat.pos_iff_ne_zero.mp hk), sub_zero]
          rw [hp, if_pos (hs idx).2]
          rw [infectionScan_beta_one s hs g st l (idx + 1)]
          simp [hsu, hk]
        · rw [if_neg hk]
          rw [infectionScan_beta_one s hs g st l idx]
          simp [hsu, hk]
      · rw [if_neg hsu]
        rw [infectionScan_beta_one s hs g st l idx]
        simp [hsu]

lemma epidemicStep_deterministic (s : RStream) (hs : RStream.Valid s) (sim : Sim)
    (hb : sim.beta = 1) (hg : sim.gamma ≤ 0) :
    ∃ j, (epidemicStep s sim).1 =
      { sim with state := detUpdate sim.G sim.state, idx := j } := by
  refine ⟨(recoveryScan s sim.gamma sim.state sim.G.nodes
    (infectionScan s sim.beta sim.G sim.state sim.G.nodes sim.idx).2).2, ?_⟩
  have h1 : (infectionScan s sim.beta sim.G sim.state sim.G.nodes sim.idx).1 =
      detTargets sim.G sim.state := by
    rw [hb]
    exact infectionScan_beta_one s hs sim.G sim.state sim.G.nodes sim.idx
  have h2 : (recoveryScan s sim.gamma sim.state sim.G.nodes
      (infectionScan s sim.beta sim.G sim.state sim.G.nodes sim.idx).2).1 = [] :=
    recoveryScan_of_nonpos s hs sim.gamma hg sim.state sim.G.nodes _
  show { sim with
      state := (recoveryScan s sim.gamma sim.state sim.G.nodes
          (infectionScan s sim.beta sim.G sim.state sim.G.nodes sim.idx).2).1.foldl
        (fun st u => setSt st u SState.recovered)
        ((infectionScan s sim.beta sim.G sim.state sim.G.nodes sim.idx).1.foldl
          (fun st u => setSt st u SState.infected) sim.state),
      idx := _ } = _
  rw [h1, h2]
  rfl

end ASIR

namespace ASIR

/-! ## Ring-lattice scenario lemmas -/

lemma detUpdate_apply (g : Graph) (st : Nat → SState) (u : Nat) :
    detUpdate g st u = if u ∈ detTargets g st then SState.infected else st u :=
  foldl_setSt_apply _ _ _ _

lemma detTargets_lt_20 (k u : Nat) (hu : u ∈ detTargets ring20 (ringSt k)) : u < 20 := by
  have h := List.mem_of_mem_filter hu
  simpa [ring20, List.mem_range] using h

lemma ring_stabilize (k : Nat) (hk : 5 ≤ k) : ringSt k = ringSt 5 := by
  funext u
  rw [ringSt, ringSt]
  by_cases hu : u < 20
  · rw [if_pos ⟨hu, by omega⟩, if_pos ⟨hu, by omega⟩]
  · rw [if_neg (fun h => hu h.1), if_neg (fun h => hu h.1)]

lemma ring_detUpdate (k : Nat) : detUpdate ring20 (ringSt k) = ringSt (k + 1) := by
  funext u
  rw [detUpdate_apply]
  by_cases hu : u < 20
  · by_cases hk : k ≤ 5
    · revert hu
      revert u
      interval_cases k <;> decide
    · have h5 : ringSt k = ringSt 5 := ring_stabilize k (by omega)
      have h6 : ringSt (k + 1) = ringSt 5 := ring_stabilize (k + 1) (by omega)
      rw [h5, h6, if_neg]
      intro hmem
      have hempty : detTargets ring20 (ringSt 5) = [] := by decide
      rw [hempty] at hmem
      simp at hmem
  · rw [if_neg (fun hmem => hu (detTargets_lt_20 k u hmem))]
    rw [ringSt, ringSt, if_neg (fun h => hu h.1), if_neg (fun h => hu h.1)]

lemma ring_init_state : (infectNode (initSim ring20 1 0 0 0 0) 0).state = ringSt 0 := by
  funext u
  show (if u = 0 then SState.infected else SState.susceptible) = ringSt 0 u
  rw [ringSt]
  by_cases h : u = 0
  · rw [if_pos h, if_pos ⟨by omega, by omega⟩]
  · rw [if_neg h, if_neg (by omega)]

lemma ring_init : infectNode (initSim ring20 1 0 0 0 0) 0 = ringSim 0 0 := by
  apply Sim.ext
  · rfl
  · rfl
  · rfl
  · rfl
  · rfl
  · decide
  · exact ring_init_state
  · rfl

lemma ring_stepSim (s : RStream) (hs : RStream.Valid s) (k idx : Nat) :
    ∃ j, stepSim s (ringSim k idx) = ringSim (k + 1) j := by
  obtain ⟨j1, ha⟩ := adaptiveStep_degenerate s hs (ringSim k idx) (le_refl 0) (le_refl 0)
  obtain ⟨j2, he⟩ := epidemicStep_deterministic s hs (ringSim k j1) rfl (le_refl 0)
  refine ⟨j2, ?_⟩
  have ha2 : (adaptiveStep s (ringSim k idx)).1 = ringSim k j1 := ha
  rw [stepSim, ha2, he]
  apply Sim.ext
  · rfl
  · rfl
  · rfl
  · rfl
  · rfl
  · rfl
  · exact ring_detUpdate k
  · rfl

lemma ring_counts_min (k : Nat) :
    countStates ring20 (ringSt k) = countStates ring20 (ringSt (min k 5)) := by
  by_cases hk : k ≤ 5
  · rw [Nat.min_eq_left hk]
  · rw [Nat.min_eq_right (by omega), ring_stabilize k (by omega)]

lemma ring_countI_ne_zero (k : Nat) : ¬ (countStates ring20 (ringSt k)).2.1 = 0 := by
  rw [ring_counts_min]
  have key : ∀ m, m < 6 → ¬ (countStates ring20 (ringSt m)).2.1 = 0 := by decide
  exact key _ (by omega)

lemma ring_countI_mono (i j : Nat) (hij : i ≤ j) :
    (countStates ring20 (ringSt i)).2.1 ≤ (countStates ring20 (ringSt j)).2.1 := by
  rw [ring_counts_min i, ring_counts_min j]
  have key : ∀ a, a < 6 → ∀ b, b < 6 → a ≤ b →
      (countStates ring20 (ringSt a)).2.1 ≤ (countStates ring20 (ringSt b)).2.1 := by decide
  exact key _ (by omega) _ (by omega) (by omega)

lemma ring_countI_full (k : Nat) (hk : 5 ≤ k) :
    (countStates ring20 (ringSt k)).2.1 = 20 := by
  rw [ring_stabilize k hk]
  decide

end ASIR

namespace ASIR

/-! ## The ring run and C8 -/

lemma ring_runAux (s : RStream) (hs : RStream.Valid s) :
    ∀ (fuel k t idx : Nat) (es : List Entry) (ms : List Metrics),
      (runAux s false fuel t (ringSim k idx) es ms).series =
        es ++ (List.range fuel).map (fun a =>
          (⟨(countStates ring20 (ringSt (k + a))).1,
            (countStates ring20 (ringSt (k + a))).2.1,
            (countStates ring20 (ringSt (k + a))).2.2, t + a⟩ : Entry))
  | 0, k, t, idx, es, ms => by simp [runAux]
  | fuel + 1, k, t, idx, es, ms => by
      obtain ⟨j, hstep⟩ := ring_stepSim s hs k idx
      simp only [runAux]
      rw [show (ringSim k idx).G = ring20 from rfl,
        show (ringSim k idx).state = ringSt k from rfl]
      rw [if_neg (ring_countI_ne_zero k), hstep]
      rw [ring_runAux s hs fuel (k + 1) (t + 1) j]
      rw [List.range_succ_eq_map, List.map_cons, List.map_map]
      have hfun : ((fun a =>
            (⟨(countStates ring20 (ringSt (k + a))).1,
              (countStates ring20 (ringSt (k + a))).2.1,
              (countStates ring20 (ringSt (k + a))).2.2, t + a⟩ : Entry)) ∘ Nat.succ)
          = fun a =>
            (⟨(countStates ring20 (ringSt (k + 1 + a))).1,
              (countStates ring20 (ringSt (k + 1 + a))).2.1,
              (countStates ring20 (ringSt (k + 1 + a))).2.2, t + 1 + a⟩ : Entry) := by
        funext a
        show (⟨(countStates ring20 (ringSt (k + (a + 1)))).1,
          (countStates ring20 (ringSt (k + (a + 1)))).2.1,
          (countStates ring20 (ringSt (k + (a + 1)))).2.2, t + (a + 1)⟩ : Entry) = _
        have h1 : k + (a + 1) = k + 1 + a := by omega
        have h2 : t + (a + 1) = t + 1 + a := by omega
        rw [h1, h2]
      rw [hfun]
      simp [List.append_assoc]

lemma getD_map_range_entry (n : Nat) (f : Nat → Entry) (i : Nat) (d : Entry) (h : i < n) :
    ((List.range n).map f).getD i d = f i := by
  rw [List.getD_eq_getElem?_getD, List.getElem?_map, List.getElem?_range h]
  rfl

/-- C8: the ring-lattice scenario — ring of 20 nodes, each tied to its 2
nearest neighbors per side, β = 1, γ = α = μ = 0, patient zero at node 0.
For every valid RNG stream and every step cap: the run records exactly
maxSteps entries (it never terminates via I = 0 and is stopped only by the
cap), the I series never decreases, every entry from step 10 = ⌈(N/2)/1⌉
on records full infection I = 20, and the whole series is independent of
the stream — zero stochastic variance. -/
theorem c8_ring_scenario (s : RStream) (hs : RStream.Valid s) (maxSteps i j : Nat)
    (hij : i ≤ j) (hj : j < maxSteps) (s2 : RStream) (hs2 : RStream.Valid s2) :
    (runSim s (infectNode (initSim ring20 1 0 0 0 0) 0) maxSteps false).series.length
        = maxSteps ∧
    ((runSim s (infectNode (initSim ring20 1 0 0 0 0) 0) maxSteps false).series.getD
        i default).I ≤
      ((runSim s (infectNode (initSim ring20 1 0 0 0 0) 0) maxSteps false).series.getD
        j default).I ∧
    (10 ≤ i →
      ((runSim s (infectNode (initSim ring20 1 0 0 0 0) 0) maxSteps false).series.getD
        i default).I = 20) ∧
    (runSim s2 (infectNode (initSim ring20 1 0 0 0 0) 0) maxSteps false).series =
      (runSim s (infectNode (initSim ring20 1 0 0 0 0) 0) maxSteps false).series := by
  have hseries : ∀ (s3 : RStream), RStream.Valid s3 →
      (runSim s3 (infectNode (initSim ring20 1 0 0 0 0) 0) maxSteps false).series =
        (List.range maxSteps).map (fun a =>
          (⟨(countStates ring20 (ringSt a)).1, (countStates ring20 (ringSt a)).2.1,
            (countStates ring20 (ringSt a)).2.2, a⟩ : Entry)) := by
    intro s3 hs3
    rw [runSim, ring_init, ring_runAux s3 hs3 maxSteps 0 0 0 [] []]
    simp
  have hi : i < maxSteps := by omega
  refine ⟨?_, ?_, ?_, ?_⟩
  · rw [hseries s hs]
    simp
  · rw [hseries s hs, getD_map_range_entry maxSteps _ i default hi,
      getD_map_range_entry maxSteps _ j default hj]
    exact ring_countI_mono i j hij
  · intro h10
    rw [hseries s hs, getD_map_range_entry maxSteps _ i default hi]
    exact ring_countI_full i (by omega)
  · rw [hseries s hs, hseries s2 hs2]

lemma constHalf_valid : RStream.Valid constHalf := by
  intro n
  constructor <;> norm_num [constHalf]

lemma constThird_valid : RStream.Valid constThird := by
  intro n
  constructor <;> norm_num [constThird]

/-- Witness for C8 at the stream 1/2, cap 12, indices 10 ≤ 11, against the
stream 1/3. -/
theorem c8_ring_scenario_witness :
    (runSim constHalf (infectNode (initSim ring20 1 0 0 0 0) 0) 12 false).series.length
        = 12 ∧
    ((runSim constHalf (infectNode (initSim ring20 1 0 0 0 0) 0) 12 false).series.getD
        10 default).I ≤
      ((runSim constHalf (infectNode (initSim ring20 1 0 0 0 0) 0) 12 false).series.getD
        11 default).I ∧
    (10 ≤ 10 →
      ((runSim constHalf (infectNode (initSim ring20 1 0 0 0 0) 0) 12 false).series.getD
        10 default).I = 20) ∧
    (runSim constThird (infectNode (initSim ring20 1 0 0 0 0) 0) 12 false).series =
      (runSim constHalf (infectNode (initSim ring20 1 0 0 0 0) 0) 12 false).series :=
  c8_ring_scenario constHalf constHalf_valid 12 10 11 (by omega) (by omega)
    constThird constThird_valid

end ASIR
